import Mathlib

/-!
Verification of the `Blacklist` component of the weave keyserver
(`keyexchange/filtering/blacklist.py`): a TTL'd IP blacklist shared
across server processes through a cache backend.

The embedding follows the Python source line by line:

* the Python `set` of blacklisted IPs becomes a `Finset String`;
* the Python `dict` mapping IPs to (optional, absolute) expiry times
  becomes an association list `TtlMap` (`time.time()` is modelled as an
  explicit `now : Int` argument);
* the memcached client is external to the repository, so the shape of
  the data stored under the `keyexchange:blacklist` key and the
  outcomes of `get` / `cas` calls are passed in explicitly (`get`
  returns an `Option Snapshot`, the outcome of the i-th `cas` attempt
  of a `save` call is an oracle `casOk : Nat → Bool`, and the store
  contents observed by the reload after a failed attempt is
  `remoteAt : Nat → Option Snapshot`);
* Python statements that can raise (`set.remove`, `dict` lookup and
  `del` on a missing key) are modelled with `Except` / `Option`
  results carrying the state at the point of the raise.
-/

/-- Association list from IP strings to optional absolute expiry times,
modelling the Python dict `self._ttls` (value `none` models Python
`None`, i.e. no expiry). -/
abbrev TtlMap := List (String × Option Int)

/-- Python `self._ttls[k]` as a total lookup: `none` models a
`KeyError`, `some v` the stored value. -/
def tlookup (k : String) : TtlMap → Option (Option Int)
  | [] => none
  | (k2, v) :: rest => if k2 = k then some v else tlookup k rest

/-- Python `self._ttls[k] = v` (insert or overwrite). -/
def tset (k : String) (v : Option Int) : TtlMap → TtlMap
  | [] => [(k, v)]
  | (k2, v2) :: rest => if k2 = k then (k, v) :: rest else (k2, v2) :: tset k v rest

/-- Python `del self._ttls[k]` (the deletion itself; the `KeyError`
on a missing key is handled at the call sites). -/
def tdel (k : String) : TtlMap → TtlMap
  | [] => []
  | (k2, v2) :: rest => if k2 = k then tdel k rest else (k2, v2) :: tdel k rest

/-- Python `self._ttls.update(remote)`: write every entry of `remote`
into the map, overwriting existing keys. -/
def tupdate (l remote : TtlMap) : TtlMap :=
  remote.foldl (fun acc kv => tset kv.1 kv.2 acc) l

/-- The pair stored in the backend under the `keyexchange:blacklist`
key: `(self.ips, self._ttls)`. -/
abbrev Snapshot := Finset String × TtlMap

/-- The mutable state of a `Blacklist` instance: the IP set `self.ips`,
the expiry map `self._ttls` and the `self._dirty` flag.  The lock and
the syncer thread carry no data relevant to the claims. -/
structure Blacklist where
  ips : Finset String
  ttls : TtlMap
  dirty : Bool
deriving DecidableEq

/-- `Blacklist.__init__`: empty set, empty TTL map, not dirty. -/
def Blacklist.init : Blacklist := ⟨∅, [], false⟩

instance {α β : Type} [DecidableEq α] [DecidableEq β] : DecidableEq (Except α β) :=
  fun x y =>
    match x, y with
    | .error a, .error b => decidable_of_iff (a = b) (by simp)
    | .ok a, .ok b => decidable_of_iff (a = b) (by simp)
    | .error _, .ok _ => .isFalse (fun h => Except.noConfusion h)
    | .ok _, .error _ => .isFalse (fun h => Except.noConfusion h)

/-- `Blacklist.update` (pull).  `cacheData = none` models
`self._cache_server is None`; `some d` models a cache server whose
`get('keyexchange:blacklist')` returns `d`.  Mirrors the source
exactly: when the local set is not a superset of the remote one, the
source evaluates `self.ips.union(ips)` — whose result is discarded,
since Python `set.union` returns a new set — and then merges the TTL
maps with `self._ttls.update(ttls)`.  Hence `ips` is never modified
here. -/
def Blacklist.update (b : Blacklist) (cacheData : Option (Option Snapshot)) : Blacklist :=
  match cacheData with
  | none => b
  | some none => b
  | some (some (rips, rttls)) =>
    if ¬ rips ⊆ b.ips then
      { b with ttls := tupdate b.ttls rttls }
    else b

/-- The state change common to `Blacklist.remove`'s success path and
the expiry path of `Blacklist.__contains__` (which calls
`self.remove(elmt)` while `elmt` is known to be present). -/
def Blacklist.removeState (b : Blacklist) (elmt : String) : Blacklist :=
  { ips := b.ips.erase elmt, ttls := tdel elmt b.ttls, dirty := true }

/-- `Blacklist.remove`.  `self.ips.remove(elmt)` raises `KeyError` when
`elmt` is absent (state unchanged, modelled `.error b`); then
`del self._ttls[elmt]` raises when `elmt` has no TTL entry, at which
point the set was already mutated (modelled `.error` with the
half-mutated state); otherwise both deletions happen and the dirty
flag is set. -/
def Blacklist.remove (b : Blacklist) (elmt : String) : Except Blacklist Blacklist :=
  if elmt ∈ b.ips then
    if (tlookup elmt b.ttls).isSome then .ok (b.removeState elmt)
    else .error { b with ips := b.ips.erase elmt }
  else .error b

/-- `Blacklist.add`: insert into the set, store `now + ttl` (or `None`)
in the TTL map, mark dirty. -/
def Blacklist.add (b : Blacklist) (elmt : String) (now : Int) (ttl : Option Int) : Blacklist :=
  { ips := insert elmt b.ips,
    ttls := tset elmt (ttl.map (fun t => now + t)) b.ttls,
    dirty := true }

/-- `Blacklist.__contains__` at time `now`.  Result `none` models the
`KeyError` raised by `self._ttls[elmt]` when `elmt` is in the set but
has no TTL entry.  In the expired branch the source calls
`self.remove(elmt)`; there `elmt ∈ self.ips` and its TTL entry exists,
so that call is exactly `removeState`. -/
def Blacklist.contains (b : Blacklist) (elmt : String) (now : Int) :
    Option (Bool × Blacklist) :=
  if elmt ∈ b.ips then
    match tlookup elmt b.ttls with
    | none => none
    | some none => some (true, b)
    | some (some t) =>
      if t - now ≤ 0 then some (false, b.removeState elmt)
      else some (true, b)
  else some (false, b)

/-- The CAS retry loop of `Blacklist.save`, `while tries < 10` with
`tries` counting up: `fuel` is the number of remaining attempts
(`10 - tries`) and `tries` indexes the oracles.  A successful
`cas('keyexchange:blacklist', (self.ips, self._ttls))` clears the
dirty flag, stops, and the written snapshot is returned; a failed
attempt first reloads remote state via `self.update()` and retries.
Running out of attempts returns normally with nothing written. -/
def saveLoop (casOk : Nat → Bool) (remoteAt : Nat → Option Snapshot) :
    Nat → Nat → Blacklist → Blacklist × Option Snapshot
  | 0, _, b => (b, none)
  | fuel + 1, tries, b =>
    if casOk tries then ({ b with dirty := false }, some (b.ips, b.ttls))
    else saveLoop casOk remoteAt fuel (tries + 1) (b.update (some (remoteAt tries)))

/-- `Blacklist.save` (push).  `hasCache = false` models
`self._cache_server is None`.  When there is no cache server or the
state is not dirty, nothing happens; otherwise the CAS loop runs with
at most 10 attempts. -/
def Blacklist.save (b : Blacklist) (hasCache : Bool) (casOk : Nat → Bool)
    (remoteAt : Nat → Option Snapshot) : Blacklist × Option Snapshot :=
  if hasCache && b.dirty then saveLoop casOk remoteAt 10 0 b else (b, none)

/-- The state invariant of a `Blacklist`: every IP in the set has a TTL
entry, so the lookups in `__contains__` and `remove` cannot raise. -/
def BInv (b : Blacklist) : Prop :=
  ∀ ip ∈ b.ips, (tlookup ip b.ttls).isSome = true

instance (b : Blacklist) : Decidable (BInv b) := by
  unfold BInv; infer_instance

/-- Iterated pull: apply `update` with the snapshots `remoteAt i`,
`remoteAt (i+1)`, ..., `n` times.  This is the sequence of reloads a
`save` call performs after failed CAS attempts. -/
def pullIter (remoteAt : Nat → Option Snapshot) : Nat → Nat → Blacklist → Blacklist
  | 0, _, b => b
  | n + 1, i, b => pullIter remoteAt n (i + 1) (b.update (some (remoteAt i)))

/-- Sample state for witnesses: `"a"` blocked with no expiry. -/
def sampleNone : Blacklist := Blacklist.init.add "a" 0 none

/-- Sample state for witnesses: `"a"` blocked at time 0 with TTL 3
(absolute expiry 3). -/
def sampleTtl : Blacklist := Blacklist.init.add "a" 0 (some 3)

/-- CAS oracle that always succeeds. -/
def casAlways : Nat → Bool := fun _ => true

/-- CAS oracle that always fails. -/
def casNever : Nat → Bool := fun _ => false

/-- CAS oracle succeeding exactly on the third attempt (index 2). -/
def casThird : Nat → Bool := fun i => decide (i = 2)

/-- Remote store that always reads back empty. -/
def remoteNone : Nat → Option Snapshot := fun _ => none

/-- Two-instance scenario over a shared backend: instance A blocks
`1.1.1.1` locally. -/
def nodeA1 : Blacklist := Blacklist.init.add "1.1.1.1" 0 none

/-- Instance A publishes; the CAS on the empty store succeeds at the
first attempt, so `pushA.2` is the snapshot now held by the store. -/
def pushA : Blacklist × Option Snapshot := nodeA1.save true casAlways remoteNone

/-- Instance B pulls the store (which holds A's snapshot) and then
blocks `2.2.2.2` locally. -/
def nodeB1 : Blacklist := (Blacklist.init.update (some pushA.2)).add "2.2.2.2" 0 none

/-- Instance B publishes; the store has not changed since B's pull, so
the CAS succeeds at the first attempt. -/
def pushB : Blacklist × Option Snapshot := nodeB1.save true casAlways remoteNone

/-- Instance A pulls the store again (which now holds B's snapshot):
A's final view. -/
def nodeA2 : Blacklist := pushA.1.update (some pushB.2)

/-- Instance B's final view. -/
def nodeB2 : Blacklist := pushB.1

namespace Spec2Proof

theorem tlookup_tset_self (k : String) (v : Option Int) (l : TtlMap) :
    tlookup k (tset k v l) = some v := by
  induction l with
  | nil => simp [tset, tlookup]
  | cons hd tl ih =>
    obtain ⟨k2, v2⟩ := hd
    by_cases h : k2 = k
    · subst h; simp [tset, tlookup]
    · simp [tset, tlookup, h, ih]

theorem tlookup_tset_of_ne {k2 k : String} (v : Option Int) (l : TtlMap) (h : k2 ≠ k) :
    tlookup k (tset k2 v l) = tlookup k l := by
  induction l with
  | nil => simp [tset, tlookup, h]
  | cons hd tl ih =>
    obtain ⟨k3, v3⟩ := hd
    by_cases h3 : k3 = k2
    · subst h3; simp [tset, tlookup, h]
    · simp only [tset, if_neg h3]
      by_cases hk : k3 = k
      · simp [tlookup, hk]
      · simp [tlookup, hk, ih]

theorem tlookup_tdel_self (k : String) (l : TtlMap) :
    tlookup k (tdel k l) = none := by
  induction l with
  | nil => rfl
  | cons hd tl ih =>
    obtain ⟨k2, v2⟩ := hd
    by_cases h : k2 = k
    · simp [tdel, h, ih]
    · simp [tdel, tlookup, h, ih]

theorem tlookup_tdel_of_ne {k2 k : String} (l : TtlMap) (h : k2 ≠ k) :
    tlookup k (tdel k2 l) = tlookup k l := by
  induction l with
  | nil => rfl
  | cons hd tl ih =>
    obtain ⟨k3, v3⟩ := hd
    by_cases h3 : k3 = k2
    · subst h3; simp [tdel, tlookup, h, ih]
    · by_cases hk : k3 = k
      · subst hk; simp [tdel, tlookup, h3]
      · simp [tdel, tlookup, h3, hk, ih]

theorem isSome_tlookup_tset (k k2 : String) (v : Option Int) (l : TtlMap)
    (h : (tlookup k l).isSome = true) : (tlookup k (tset k2 v l)).isSome = true := by
  by_cases hk : k2 = k
  · subst hk; rw [tlookup_tset_self]; rfl
  · rw [tlookup_tset_of_ne v l hk]; exact h

theorem isSome_tlookup_tupdate (k : String) :
    ∀ (r l : TtlMap), (tlookup k l).isSome = true →
      (tlookup k (tupdate l r)).isSome = true := by
  intro r
  induction r with
  | nil => intro l h; exact h
  | cons hd tl ih =>
    intro l h
    have he : tupdate l (hd :: tl) = tupdate (tset hd.1 hd.2 l) tl := rfl
    rw [he]
    exact ih _ (isSome_tlookup_tset k hd.1 hd.2 l h)

theorem update_ips (b : Blacklist) (d : Option (Option Snapshot)) :
    (b.update d).ips = b.ips := by
  match d with
  | none => rfl
  | some none => rfl
  | some (some (rips, rttls)) =>
    simp only [Blacklist.update]
    split <;> rfl

theorem update_dirty (b : Blacklist) (d : Option (Option Snapshot)) :
    (b.update d).dirty = b.dirty := by
  match d with
  | none => rfl
  | some none => rfl
  | some (some (rips, rttls)) =>
    simp only [Blacklist.update]
    split <;> rfl

theorem pullIter_dirty (remoteAt : Nat → Option Snapshot) :
    ∀ (n i : Nat) (b : Blacklist), (pullIter remoteAt n i b).dirty = b.dirty := by
  intro n
  induction n with
  | zero => intro i b; rfl
  | succ m ih =>
    intro i b
    rw [show pullIter remoteAt (m + 1) i b
        = pullIter remoteAt m (i + 1) (b.update (some (remoteAt i))) from rfl]
    rw [ih, update_dirty]

theorem binv_add (b : Blacklist) (e : String) (now : Int) (ttl : Option Int)
    (h : BInv b) : BInv (b.add e now ttl) := by
  intro ip hip
  simp only [Blacklist.add] at hip ⊢
  rcases Finset.mem_insert.mp hip with rfl | hmem
  · rw [tlookup_tset_self]; rfl
  · exact isSome_tlookup_tset ip e _ b.ttls (h ip hmem)

theorem binv_removeState {b : Blacklist} (e : String) (h : BInv b) :
    BInv (b.removeState e) := by
  intro ip hip
  simp only [Blacklist.removeState] at hip ⊢
  obtain ⟨hne, hmem⟩ := Finset.mem_erase.mp hip
  rw [tlookup_tdel_of_ne b.ttls (Ne.symm hne)]
  exact h ip hmem

theorem binv_update (b : Blacklist) (d : Option (Option Snapshot))
    (h : BInv b) : BInv (b.update d) := by
  match d with
  | none => exact h
  | some none => exact h
  | some (some (rips, rttls)) =>
    simp only [Blacklist.update]
    split
    · intro ip hip
      exact isSome_tlookup_tupdate ip rttls b.ttls (h ip hip)
    · exact h

theorem binv_saveLoop (casOk : Nat → Bool) (remoteAt : Nat → Option Snapshot) :
    ∀ (fuel tries : Nat) (b : Blacklist), BInv b →
      BInv (saveLoop casOk remoteAt fuel tries b).1 := by
  intro fuel
  induction fuel with
  | zero => intro tries b h; exact h
  | succ n ih =>
    intro tries b h
    simp only [saveLoop]
    split
    · exact fun ip hip => h ip hip
    · exact ih (tries + 1) (b.update (some (remoteAt tries))) (binv_update b _ h)

theorem binv_save (b : Blacklist) (hc : Bool) (casOk : Nat → Bool)
    (remoteAt : Nat → Option Snapshot) (h : BInv b) :
    BInv (b.save hc casOk remoteAt).1 := by
  unfold Blacklist.save
  split
  · exact binv_saveLoop casOk remoteAt 10 0 b h
  · exact h

theorem binv_contains {b : Blacklist} {e : String} {now : Int} {r : Bool × Blacklist}
    (h : BInv b) (he : b.contains e now = some r) : BInv r.2 := by
  unfold Blacklist.contains at he
  by_cases hmem : e ∈ b.ips
  · simp only [if_pos hmem] at he
    cases hl : tlookup e b.ttls with
    | none => rw [hl] at he; exact absurd he (by simp)
    | some v =>
      rw [hl] at he
      cases v with
      | none =>
        simp only [Option.some.injEq] at he
        rw [← he]; exact h
      | some t =>
        by_cases ht : t - now ≤ 0
        · simp only [if_pos ht, Option.some.injEq] at he
          rw [← he]; exact binv_removeState e h
        · simp only [if_neg ht, Option.some.injEq] at he
          rw [← he]; exact h
  · simp only [if_neg hmem, Option.some.injEq] at he
    rw [← he]; exact h

theorem contains_isSome_of_binv {b : Blacklist} (e : String) (now : Int)
    (h : BInv b) : (b.contains e now).isSome = true := by
  unfold Blacklist.contains
  by_cases hmem : e ∈ b.ips
  · simp only [if_pos hmem]
    cases hl : tlookup e b.ttls with
    | none =>
      have := h e hmem
      rw [hl] at this
      exact absurd this (by simp)
    | some v =>
      cases v with
      | none => rfl
      | some t =>
        show (if t - now ≤ 0 then some (false, b.removeState e)
          else some (true, b)).isSome = true
        split <;> rfl
  · simp [if_neg hmem]

theorem saveLoop_all_fail (casOk : Nat → Bool) (remoteAt : Nat → Option Snapshot) :
    ∀ (fuel start : Nat) (b : Blacklist),
      (∀ i, i < fuel → casOk (start + i) = false) →
      saveLoop casOk remoteAt fuel start b = (pullIter remoteAt fuel start b, none) := by
  intro fuel
  induction fuel with
  | zero => intro start b h; rfl
  | succ n ih =>
    intro start b h
    have h0 : casOk start = false := by
      have := h 0 (Nat.succ_pos n); simpa using this
    rw [show saveLoop casOk remoteAt (n + 1) start b
        = if casOk start then ({ b with dirty := false }, some (b.ips, b.ttls))
          else saveLoop casOk remoteAt n (start + 1)
            (b.update (some (remoteAt start))) from rfl]
    rw [show pullIter remoteAt (n + 1) start b
        = pullIter remoteAt n (start + 1) (b.update (some (remoteAt start))) from rfl]
    rw [if_neg (by simp [h0])]
    apply ih
    intro i hi
    have hx := h (i + 1) (by omega)
    rw [show start + (i + 1) = start + 1 + i by omega] at hx
    exact hx

theorem saveLoop_first_success (casOk : Nat → Bool) (remoteAt : Nat → Option Snapshot) :
    ∀ (fuel k start : Nat) (b : Blacklist), k < fuel →
      (∀ i, i < k → casOk (start + i) = false) → casOk (start + k) = true →
      saveLoop casOk remoteAt fuel start b =
        ({ pullIter remoteAt k start b with dirty := false },
          some ((pullIter remoteAt k start b).ips, (pullIter remoteAt k start b).ttls)) := by
  intro fuel
  induction fuel with
  | zero => intro k start b hk; omega
  | succ n ih =>
    intro k start b hk hfail hsucc
    cases k with
    | zero =>
      have h0 : casOk start = true := by simpa using hsucc
      simp [saveLoop, pullIter, h0]
    | succ m =>
      have h0 : casOk start = false := by
        have := hfail 0 (Nat.succ_pos m); simpa using this
      rw [show saveLoop casOk remoteAt (n + 1) start b
          = if casOk start then ({ b with dirty := false }, some (b.ips, b.ttls))
            else saveLoop casOk remoteAt n (start + 1)
              (b.update (some (remoteAt start))) from rfl]
      rw [if_neg (by simp [h0])]
      rw [show pullIter remoteAt (m + 1) start b
          = pullIter remoteAt m (start + 1) (b.update (some (remoteAt start))) from rfl]
      apply ih m (start + 1) (b.update (some (remoteAt start))) (by omega)
      · intro i hi
        have hx := hfail (i + 1) (by omega)
        rw [show start + (i + 1) = start + 1 + i by omega] at hx
        exact hx
      · rw [show start + 1 + m = start + (m + 1) by omega]
        exact hsucc

theorem save_dirty_all_fail (b : Blacklist) (hc : Bool) (casOk : Nat → Bool)
    (remoteAt : Nat → Option Snapshot) (h : ∀ i, i < 10 → casOk i = false) :
    ((b.save hc casOk remoteAt).1).dirty = b.dirty := by
  unfold Blacklist.save
  split
  · rw [saveLoop_all_fail casOk remoteAt 10 0 b (fun i hi => by simpa using h i hi)]
    exact pullIter_dirty remoteAt 10 0 b
  · rfl

end Spec2Proof

/-- C1: the claim states that `update()` merges the remote snapshot
additively, so that afterwards every remote IP is a member of the
local ip set.  The code evaluates `self.ips.union(ips)` and discards
the result (Python `set.union` returns a new set), so the ip set is
never modified: at the failing input — empty local blacklist, remote
snapshot `({"1.2.3.4"}, {"1.2.3.4": None})` stored under the blacklist
key — the pulled IP is not a member afterwards, even though the TTL
map was merged. -/
theorem update_pull_drops_remote_ips :
    (Blacklist.init.update (some (some ({"1.2.3.4"}, [("1.2.3.4", none)])))).ips = ∅ ∧
    "1.2.3.4" ∉
      (Blacklist.init.update (some (some ({"1.2.3.4"}, [("1.2.3.4", none)])))).ips ∧
    (Blacklist.init.update (some (some ({"1.2.3.4"}, [("1.2.3.4", none)])))).ttls
      = [("1.2.3.4", none)] := by
  decide

/-- C2: the claim states that two instances sharing a backend converge
to a superset-consistent view once each has published and pulled at
least once.  In the concrete execution `nodeA1 … nodeB2` — A blocks
`1.1.1.1` and publishes, B pulls that snapshot, blocks `2.2.2.2` and
publishes, A pulls again — both publishes succeed at the first CAS
attempt and each instance pulls a snapshot containing the other's IP,
yet neither IP reaches the other instance's view, because `update()`
discards the result of `self.ips.union(ips)`. -/
theorem convergence_fails_after_publish_and_pull :
    pushA.2 = some ({"1.1.1.1"}, [("1.1.1.1", none)]) ∧
    pushB.2.isSome = true ∧
    "1.1.1.1" ∈ nodeA2.ips ∧ "2.2.2.2" ∈ nodeB2.ips ∧
    "1.1.1.1" ∉ nodeB2.ips ∧ "2.2.2.2" ∉ nodeA2.ips := by
  decide

/-- C6: when the dirty flag is clear, or when there is no cache
backend, `save()` performs no backend operation (nothing is written,
for any CAS oracle) and leaves the blacklist state unchanged. -/
theorem save_noop_when_clean_or_detached (b : Blacklist) (casOk : Nat → Bool)
    (remoteAt : Nat → Option Snapshot) :
    b.save false casOk remoteAt = (b, none) ∧
    (b.dirty = false → ∀ hc, b.save hc casOk remoteAt = (b, none)) := by
  constructor
  · unfold Blacklist.save
    rw [if_neg (by simp)]
  · intro hd hc
    unfold Blacklist.save
    rw [if_neg (by simp [hd])]

/-- C6 witness: a clean blacklist is untouched by `save` even with a
backend attached. -/
theorem save_noop_when_clean_or_detached_witness :
    Blacklist.init.dirty = false ∧
    Blacklist.init.save true casAlways remoteNone = (Blacklist.init, none) :=
  ⟨rfl, (save_noop_when_clean_or_detached Blacklist.init casAlways remoteNone).2 rfl true⟩

/-- C7: an IP added with `ttl=None` is reported blocked by every
membership check at every later time (the check also leaves the state
unchanged, so this persists across checks), and the `None` expiry is
never treated as elapsed; once `remove` succeeds on it, the check
reports it absent. -/
theorem add_none_persists_until_removed (b : Blacklist) (ip : String) (now : Int) :
    (∀ now2, (b.add ip now none).contains ip now2 = some (true, b.add ip now none)) ∧
    (∀ b2 now2, (b.add ip now none).remove ip = .ok b2 →
      b2.contains ip now2 = some (false, b2)) := by
  have hmem : ip ∈ (b.add ip now none).ips := by
    simp [Blacklist.add]
  have hl : tlookup ip (b.add ip now none).ttls = some none :=
    Spec2Proof.tlookup_tset_self ip none b.ttls
  constructor
  · intro now2
    unfold Blacklist.contains
    rw [if_pos hmem, hl]
  · intro b2 now2 h
    unfold Blacklist.remove at h
    rw [if_pos hmem, if_pos (by rw [hl]; rfl)] at h
    simp only [Except.ok.injEq] at h
    subst h
    have hnot : ip ∉ ((b.add ip now none).removeState ip).ips := by
      simp [Blacklist.removeState]
    unfold Blacklist.contains
    rw [if_neg hnot]

/-- C7 witness: concrete run of both parts at `"a"` added with no
TTL. -/
theorem add_none_persists_until_removed_witness :
    (Blacklist.init.add "a" 0 none).contains "a" 99 =
      some (true, Blacklist.init.add "a" 0 none) ∧
    (Blacklist.init.add "a" 0 none).remove "a" = .ok ⟨∅, [], true⟩ ∧
    (⟨∅, [], true⟩ : Blacklist).contains "a" 99 = some (false, ⟨∅, [], true⟩) :=
  ⟨(add_none_persists_until_removed Blacklist.init "a" 0).1 99,
   by decide,
   (add_none_persists_until_removed Blacklist.init "a" 0).2 ⟨∅, [], true⟩ 99 (by decide)⟩

/-- C9: `remove(ip)` raises `KeyError` and leaves the state unchanged
when `ip` is not in the ip set; on a state satisfying the invariant it
succeeds exactly when `ip` is present, erasing `ip` from the ip set
and the TTL map and marking the state dirty. -/
theorem remove_raises_on_absent (b : Blacklist) (ip : String) :
    (ip ∉ b.ips → b.remove ip = .error b) ∧
    (BInv b → ip ∈ b.ips →
      b.remove ip = .ok (b.removeState ip) ∧
      (b.removeState ip).ips = b.ips.erase ip ∧
      tlookup ip (b.removeState ip).ttls = none ∧
      (b.removeState ip).dirty = true) := by
  constructor
  · intro h
    unfold Blacklist.remove
    rw [if_neg h]
  · intro hInv hmem
    refine ⟨?_, rfl, Spec2Proof.tlookup_tdel_self ip b.ttls, rfl⟩
    unfold Blacklist.remove
    rw [if_pos hmem, if_pos (hInv ip hmem)]

/-- C9 witness: removing an absent IP errors with state unchanged;
removing the present IP `"a"` succeeds. -/
theorem remove_raises_on_absent_witness :
    ("z" ∉ sampleNone.ips ∧ sampleNone.remove "z" = .error sampleNone) ∧
    BInv sampleNone ∧ "a" ∈ sampleNone.ips ∧
    (sampleNone.remove "a" = .ok (sampleNone.removeState "a") ∧
      (sampleNone.removeState "a").ips = sampleNone.ips.erase "a" ∧
      tlookup "a" (sampleNone.removeState "a").ttls = none ∧
      (sampleNone.removeState "a").dirty = true) :=
  ⟨⟨by decide, (remove_raises_on_absent sampleNone "z").1 (by decide)⟩,
   by decide, by decide,
   (remove_raises_on_absent sampleNone "a").2 (by decide) (by decide)⟩

/-- C3: on a state satisfying the invariant, the membership check
returns `True` iff the IP is in the set with a `None` or still-future
expiry; when the IP is present with an elapsed non-`None` expiry the
check returns `False`, removes the IP from both the ip set and the TTL
map, and the next check (at any time) also returns `False`. -/
theorem contains_expiry_semantics (b : Blacklist) (ip : String) (now : Int)
    (hInv : BInv b) :
    ∃ r : Bool × Blacklist, b.contains ip now = some r ∧
      (r.1 = true ↔ ip ∈ b.ips ∧
        (tlookup ip b.ttls = some none ∨
          ∃ t, tlookup ip b.ttls = some (some t) ∧ 0 < t - now)) ∧
      (∀ t, ip ∈ b.ips → tlookup ip b.ttls = some (some t) → t - now ≤ 0 →
        r.1 = false ∧ ip ∉ r.2.ips ∧ tlookup ip r.2.ttls = none ∧
        ∀ now2, r.2.contains ip now2 = some (false, r.2)) := by
  by_cases hmem : ip ∈ b.ips
  · have hs := hInv ip hmem
    cases hl : tlookup ip b.ttls with
    | none => rw [hl] at hs; simp at hs
    | some v =>
      cases v with
      | none =>
        refine ⟨(true, b), ?_, ?_, ?_⟩
        · unfold Blacklist.contains
          rw [if_pos hmem, hl]
        · exact ⟨fun _ => ⟨hmem, Or.inl rfl⟩, fun _ => rfl⟩
        · intro t hm hleq hexp
          simp at hleq
      | some t0 =>
        by_cases ht : t0 - now ≤ 0
        · refine ⟨(false, b.removeState ip), ?_, ?_, ?_⟩
          · unfold Blacklist.contains
            rw [if_pos hmem, hl]
            exact if_pos ht
          · constructor
            · intro hfalse; exact absurd hfalse (by simp)
            · rintro ⟨_, heq | ⟨t, hteq, htpos⟩⟩
              · simp at heq
              · simp only [Option.some.injEq] at hteq
                omega
          · intro t hm hleq hexp
            refine ⟨rfl, ?_, Spec2Proof.tlookup_tdel_self ip b.ttls, ?_⟩
            · simp [Blacklist.removeState]
            · intro now2
              have hnot : ip ∉ (b.removeState ip).ips := by
                simp [Blacklist.removeState]
              unfold Blacklist.contains
              rw [if_neg hnot]
        · refine ⟨(true, b), ?_, ?_, ?_⟩
          · unfold Blacklist.contains
            rw [if_pos hmem, hl]
            exact if_neg ht
          · exact ⟨fun _ => ⟨hmem, Or.inr ⟨t0, rfl, by omega⟩⟩, fun _ => rfl⟩
          · intro t hm hleq hexp
            simp only [Option.some.injEq] at hleq
            omega
  · refine ⟨(false, b), ?_, ?_, ?_⟩
    · unfold Blacklist.contains
      rw [if_neg hmem]
    · constructor
      · intro hfalse; exact absurd hfalse (by simp)
      · rintro ⟨hm, _⟩; exact absurd hm hmem
    · intro t hm hleq hexp; exact absurd hm hmem

/-- C3 witness: the check at time 5 on `"a"` blocked with absolute
expiry 3 (invariant holds by computation). -/
theorem contains_expiry_semantics_witness :
    BInv sampleTtl ∧
    ∃ r : Bool × Blacklist, sampleTtl.contains "a" 5 = some r ∧
      (r.1 = true ↔ "a" ∈ sampleTtl.ips ∧
        (tlookup "a" sampleTtl.ttls = some none ∨
          ∃ t, tlookup "a" sampleTtl.ttls = some (some t) ∧ 0 < t - 5)) ∧
      (∀ t, "a" ∈ sampleTtl.ips → tlookup "a" sampleTtl.ttls = some (some t) →
        t - 5 ≤ 0 →
        r.1 = false ∧ "a" ∉ r.2.ips ∧ tlookup "a" r.2.ttls = none ∧
        ∀ now2, r.2.contains "a" now2 = some (false, r.2)) :=
  ⟨by decide, contains_expiry_semantics sampleTtl "a" 5 (by decide)⟩

/-- C4: the dirty-flag discipline.  `add`, a succeeding `remove`, and
the expiry removal inside a membership check all set the dirty flag;
`update` never changes it; a `save` whose CAS attempts all fail leaves
it as it was; and a `save` that clears a set dirty flag must have had
a successful CAS attempt (among the at most 10 tried). -/
theorem dirty_flag_discipline :
    (∀ (b : Blacklist) (e : String) (now : Int) (ttl : Option Int),
      (b.add e now ttl).dirty = true) ∧
    (∀ (b b2 : Blacklist) (e : String), b.remove e = .ok b2 → b2.dirty = true) ∧
    (∀ (b : Blacklist) (e : String) (now t : Int), e ∈ b.ips →
      tlookup e b.ttls = some (some t) → t - now ≤ 0 →
      ∃ b2, b.contains e now = some (false, b2) ∧ b2.dirty = true) ∧
    (∀ (b : Blacklist) (d : Option (Option Snapshot)), (b.update d).dirty = b.dirty) ∧
    (∀ (b : Blacklist) (hc : Bool) (casOk : Nat → Bool)
      (remoteAt : Nat → Option Snapshot), (∀ i, i < 10 → casOk i = false) →
      ((b.save hc casOk remoteAt).1).dirty = b.dirty) ∧
    (∀ (b : Blacklist) (hc : Bool) (casOk : Nat → Bool)
      (remoteAt : Nat → Option Snapshot), b.dirty = true →
      ((b.save hc casOk remoteAt).1).dirty = false →
      ∃ i, i < 10 ∧ casOk i = true) := by
  refine ⟨fun b e now ttl => rfl, ?_, ?_, Spec2Proof.update_dirty,
    Spec2Proof.save_dirty_all_fail, ?_⟩
  · intro b b2 e h
    unfold Blacklist.remove at h
    split at h
    · split at h
      · simp only [Except.ok.injEq] at h
        rw [← h]; rfl
      · exact Except.noConfusion h
    · exact Except.noConfusion h
  · intro b e now t hm hl hexp
    refine ⟨b.removeState e, ?_, rfl⟩
    unfold Blacklist.contains
    rw [if_pos hm, hl]
    exact if_pos hexp
  · intro b hc casOk remoteAt hd hcl
    by_contra hno
    push_neg at hno
    have hall : ∀ i, i < 10 → casOk i = false := by
      intro i hi
      exact Bool.eq_false_iff.mpr (hno i hi)
    have hpres := Spec2Proof.save_dirty_all_fail b hc casOk remoteAt hall
    rw [hcl, hd] at hpres
    exact Bool.noConfusion hpres

/-- C4 witness: concrete instances of the hypothesis-bearing parts:
a succeeding remove yields a dirty state, the expiring check yields a
dirty state, an all-failing save preserves the flag, and a clearing
save exhibits a successful CAS attempt. -/
theorem dirty_flag_discipline_witness :
    (⟨∅, [], true⟩ : Blacklist).dirty = true ∧
    (∃ b2, sampleTtl.contains "a" 5 = some (false, b2) ∧ b2.dirty = true) ∧
    ((sampleTtl.save true casNever remoteNone).1).dirty = sampleTtl.dirty ∧
    (∃ i, i < 10 ∧ casAlways i = true) :=
  ⟨dirty_flag_discipline.2.1 sampleNone ⟨∅, [], true⟩ "a" (by decide),
   dirty_flag_discipline.2.2.1 sampleTtl "a" 5 3 (by decide) (by decide) (by decide),
   dirty_flag_discipline.2.2.2.2.1 sampleTtl true casNever remoteNone
     (fun i hi => rfl),
   dirty_flag_discipline.2.2.2.2.2 sampleTtl true casAlways remoteNone
     (by decide) (by decide)⟩

/-- C5: for a dirty blacklist with a backend, `save` is the bounded
CAS retry loop: if the first successful CAS attempt is attempt `k`
(&lt; 10), the loop stops there, having re-pulled remote state exactly
once after each of the `k` failed attempts, publishes the snapshot of
the re-pulled state and clears the dirty flag; if all 10 attempts
fail, `save` returns normally with nothing published, having re-pulled
after each failure, and attempts no CAS beyond the 10th. -/
theorem save_push_retry_bounded (b : Blacklist) (casOk : Nat → Bool)
    (remoteAt : Nat → Option Snapshot) :
    (∀ k, k < 10 → (∀ i, i < k → casOk i = false) → casOk k = true →
      b.dirty = true →
      b.save true casOk remoteAt =
        ({ pullIter remoteAt k 0 b with dirty := false },
          some ((pullIter remoteAt k 0 b).ips, (pullIter remoteAt k 0 b).ttls))) ∧
    ((∀ i, i < 10 → casOk i = false) → b.dirty = true →
      b.save true casOk remoteAt = (pullIter remoteAt 10 0 b, none)) := by
  constructor
  · intro k hk hfail hsucc hd
    unfold Blacklist.save
    rw [if_pos (by simp [hd])]
    exact Spec2Proof.saveLoop_first_success casOk remoteAt 10 k 0 b hk
      (fun i hi => by simpa using hfail i hi) (by simpa using hsucc)
  · intro hfail hd
    unfold Blacklist.save
    rw [if_pos (by simp [hd])]
    exact Spec2Proof.saveLoop_all_fail casOk remoteAt 10 0 b
      (fun i hi => by simpa using hfail i hi)

/-- C5 witness: with the CAS succeeding on the third attempt the loop
stops there after two re-pulls; with the CAS never succeeding the loop
gives up silently after 10 attempts. -/
theorem save_push_retry_bounded_witness :
    (2 < 10 ∧ (∀ i, i < 2 → casThird i = false) ∧ casThird 2 = true ∧
      sampleTtl.dirty = true ∧
      sampleTtl.save true casThird remoteNone =
        ({ pullIter remoteNone 2 0 sampleTtl with dirty := false },
          some ((pullIter remoteNone 2 0 sampleTtl).ips,
            (pullIter remoteNone 2 0 sampleTtl).ttls))) ∧
    sampleTtl.save true casNever remoteNone = (pullIter remoteNone 10 0 sampleTtl, none) :=
  ⟨⟨by decide, fun i hi => by simp [casThird]; omega, by decide, rfl,
    (save_push_retry_bounded sampleTtl casThird remoteNone).1 2 (by decide)
      (fun i hi => by simp [casThird]; omega) (by decide) rfl⟩,
   (save_push_retry_bounded sampleTtl casNever remoteNone).2 (fun i hi => rfl) rfl⟩

/-- C10: every operation preserves the invariant that each IP in the
ip set has a TTL entry, and under the invariant the TTL lookup inside
a membership check never raises (the check always produces a
result). -/
theorem blacklist_invariant_preserved :
    BInv Blacklist.init ∧
    (∀ (b : Blacklist) (e : String) (now : Int) (ttl : Option Int),
      BInv b → BInv (b.add e now ttl)) ∧
    (∀ (b b2 : Blacklist) (e : String), BInv b → b.remove e = .ok b2 → BInv b2) ∧
    (∀ (b b2 : Blacklist) (e : String), BInv b → b.remove e = .error b2 → BInv b2) ∧
    (∀ (b : Blacklist) (d : Option (Option Snapshot)), BInv b → BInv (b.update d)) ∧
    (∀ (b : Blacklist) (hc : Bool) (casOk : Nat → Bool)
      (remoteAt : Nat → Option Snapshot), BInv b → BInv (b.save hc casOk remoteAt).1) ∧
    (∀ (b : Blacklist) (e : String) (now : Int) (r : Bool × Blacklist),
      BInv b → b.contains e now = some r → BInv r.2) ∧
    (∀ (b : Blacklist) (e : String) (now : Int),
      BInv b → (b.contains e now).isSome = true) := by
  refine ⟨?_, fun b e now ttl h => Spec2Proof.binv_add b e now ttl h, ?_, ?_,
    Spec2Proof.binv_update, Spec2Proof.binv_save,
    fun b e now r h he => Spec2Proof.binv_contains h he,
    fun b e now h => Spec2Proof.contains_isSome_of_binv e now h⟩
  · intro ip hip
    exact absurd hip (Finset.not_mem_empty ip)
  · intro b b2 e hInv h
    unfold Blacklist.remove at h
    split at h
    · split at h
      · simp only [Except.ok.injEq] at h
        rw [← h]
        exact Spec2Proof.binv_removeState e hInv
      · exact Except.noConfusion h
    · exact Except.noConfusion h
  · intro b b2 e hInv h
    unfold Blacklist.remove at h
    split at h
    · split at h
      · exact Except.noConfusion h
      · simp only [Except.error.injEq] at h
        rw [← h]
        intro ip hip
        exact hInv ip (Finset.mem_of_mem_erase hip)
    · simp only [Except.error.injEq] at h
      rw [← h]
      exact hInv

/-- C10 witness: the invariant holds along a concrete run of every
operation, and the check on the invariant-satisfying state produces a
result. -/
theorem blacklist_invariant_preserved_witness :
    BInv (sampleNone.add "b" 1 (some 5)) ∧
    BInv (⟨∅, [], true⟩ : Blacklist) ∧
    BInv (sampleNone.update (some (some ({"c"}, [("c", some 9)])))) ∧
    BInv (sampleNone.save true casAlways remoteNone).1 ∧
    (sampleNone.contains "a" 0).isSome = true :=
  ⟨blacklist_invariant_preserved.2.1 sampleNone "b" 1 (some 5) (by decide),
   blacklist_invariant_preserved.2.2.1 sampleNone ⟨∅, [], true⟩ "a" (by decide) (by decide),
   blacklist_invariant_preserved.2.2.2.2.1 sampleNone
     (some (some ({"c"}, [("c", some 9)]))) (by decide),
   blacklist_invariant_preserved.2.2.2.2.2.1 sampleNone true casAlways remoteNone
     (by decide),
   blacklist_invariant_preserved.2.2.2.2.2.2.2 sampleNone "a" 0 (by decide)⟩
